import Mathlib

/-!
Verification development for the exam-solution dashboard's
normalization / filtering / export pipeline
(`data_loader.py`, `sidebar.py`, `exporters.py`).

Python values (parsed JSON, duck-typed row fields) are modelled by the
inductive type `Json`.  Python floats are modelled as exact fractions
(`Frac`, an unnormalized integer pair) so that every definition in this
file evaluates inside the kernel; float rounding artifacts are out of
scope.  Fallible Python code (statements that can raise) is modelled
with `Except Unit`.
-/

/-- Fraction with integer numerator and (positive, by construction)
denominator.  Models Python numbers exactly; comparisons are by
cross-multiplication so no gcd normalization is ever needed. -/
structure Frac where
  n : Int
  d : Int
deriving DecidableEq

/-- Build a fraction from an integer. -/
def Frac.ofInt (i : Int) : Frac := ⟨i, 1⟩

/-- Cross-multiplied order on fractions (denominators are positive for
every fraction built in this file). -/
def Frac.le (a b : Frac) : Bool := decide (a.n * b.d ≤ b.n * a.d)

/-- Cross-multiplied numeric equality (`2/4` equals `1/2`), used to model
Python `==` on numbers. -/
def Frac.eqv (a b : Frac) : Bool := decide (a.n * b.d = b.n * a.d)

/-- Fraction multiplication. -/
def Frac.mul (a b : Frac) : Frac := ⟨a.n * b.n, a.d * b.d⟩

/-- Model of a parsed JSON / Python value: `None`, `bool`, number,
string, list, and dict (as an association list of string keys). -/
inductive Json where
  | null
  | bool (b : Bool)
  | num (q : Frac)
  | str (s : String)
  | arr (xs : List Json)
  | obj (fields : List (String × Json))

/-- Test for the `None` value (Python `is None`). -/
def Json.isNull : Json → Bool
  | .null => true
  | _ => false

/-- Test for a dict value (Python `isinstance(x, dict)`). -/
def Json.isObj : Json → Bool
  | .obj _ => true
  | _ => false

/-- Test for a list value (Python `isinstance(x, list)`). -/
def Json.isArr : Json → Bool
  | .arr _ => true
  | _ => false

/-- Python truthiness of a value (`if raw_data:` in `exporters.py`). -/
def pyTruthy : Json → Bool
  | .null => false
  | .bool b => b
  | .num q => !(q.eqv (Frac.ofInt 0))
  | .str s => !(s = "")
  | .arr xs => !xs.isEmpty
  | .obj fs => !fs.isEmpty

/-- Python `==` between scalar values: numbers and booleans compare
numerically (`True == 1`), strings compare as strings, `None` equals
only `None`, and any cross-type scalar comparison is `False`.
Container-to-container equality is not modelled (the filter criteria of
`sidebar.py` are strings and booleans, so the filter predicates never
compare two containers); a container compared to anything yields
`false` here, matching Python for the scalar-versus-container case. -/
def pyEq : Json → Json → Bool
  | .num x, .num y => x.eqv y
  | .num x, .bool b => x.eqv (Frac.ofInt (if b then 1 else 0))
  | .bool a, .num y => (Frac.ofInt (if a then 1 else 0)).eqv y
  | .bool a, .bool b => a = b
  | .str a, .str b => a = b
  | .null, .null => true
  | _, _ => false

/-- Model of Python `str(x)` for the values the text search touches.
Strings are returned unchanged (the only case the claims rely on);
scalars get their Python spelling; the rendering of numbers and
containers is an opaque approximation (no theorem in this file depends
on it). -/
def pyStr : Json → String
  | .str s => s
  | .bool true => "True"
  | .bool false => "False"
  | .null => "None"
  | .num q => toString q.n ++ "/" ++ toString q.d
  | .arr _ => "[list]"
  | .obj _ => "[dict]"

/-- Lower-case a character list (model of Python `str.lower()`; ASCII
letters only, which covers every string the claims mention). -/
def lowerChars (cs : List Char) : List Char := cs.map Char.toLower

/-- Substring test on character lists (Python `needle in hay`). -/
def charsContains (hay needle : List Char) : Bool := decide (needle <:+: hay)

/-- Strip leading and trailing whitespace from a character list
(model of Python `str.strip()`). -/
def stripChars (cs : List Char) : List Char :=
  ((cs.dropWhile Char.isWhitespace).reverse.dropWhile Char.isWhitespace).reverse

/-- Accumulator loop for `pySplitDot`. -/
def splitDotGo : List Char → List Char → List String
  | [], acc => [String.mk acc.reverse]
  | c :: rest, acc =>
    if c = '.' then String.mk acc.reverse :: splitDotGo rest []
    else splitDotGo rest (c :: acc)

/-- Model of Python `path.split('.')`: splits on every dot, keeping
empty segments (`"".split('.') == ['']`). -/
def pySplitDot (s : String) : List String := splitDotGo s.toList []

/-- Digit run to a natural number. -/
def digitsVal (cs : List Char) : Nat :=
  cs.foldl (fun a c => a * 10 + (c.toNat - 48)) 0

/-- Model of the numeric string parsing performed by
`pd.to_numeric`: optional surrounding whitespace, optional sign, then
a plain decimal literal (digits with at most one dot, at least one
digit).  Exponent and infinity spellings are not modelled; no claim
involves them. -/
def parseDecimal (s : String) : Option Frac :=
  let cs := stripChars s.toList
  let signed : Int × List Char :=
    match cs with
    | '-' :: r => (-1, r)
    | '+' :: r => (1, r)
    | r => (1, r)
  let sign := signed.1
  let ip := signed.2.takeWhile Char.isDigit
  let rest := signed.2.dropWhile Char.isDigit
  match rest with
  | [] =>
    if ip.isEmpty then none
    else some ⟨sign * (digitsVal ip : Int), 1⟩
  | '.' :: fracPart =>
    let fp := fracPart.takeWhile Char.isDigit
    let rest2 := fracPart.dropWhile Char.isDigit
    if rest2.isEmpty && !(ip.isEmpty && fp.isEmpty) then
      some ⟨sign * ((digitsVal ip : Int) * (10 ^ fp.length : Nat) + (digitsVal fp : Int)),
            ((10 : Nat) ^ fp.length : Nat)⟩
    else none
  | _ => none

/-- Element-wise model of `pd.to_numeric(..., errors='coerce')`:
numbers pass through, booleans coerce to 0/1, numeric strings parse,
and everything else (including `None` and containers) becomes NaN,
modelled as `none`.  This conversion never raises. -/
def toNumericOpt : Json → Option Frac
  | .num q => some q
  | .bool b => some (Frac.ofInt (if b then 1 else 0))
  | .str s => parseDecimal s
  | _ => none

/-! ## data_loader.py -/

/-- Loop body of `safe_get` (`data_loader.py` lines 22 to 28): for each
key, a dict gets the key with the call's default as fallback, a
non-dict returns the default, and a `None` result returns the default;
after the last key the current value is returned. -/
def safeGetGo (default : Json) : List String → Json → Json
  | [], current => current
  | key :: ks, current =>
    match current with
    | .obj fs =>
      let nxt := (fs.lookup key).getD default
      if nxt.isNull then default else safeGetGo default ks nxt
    | _ => default

/-- Model of `safe_get` (`data_loader.py` lines 9 to 29). -/
def safe_get (obj : Json) (path : String) (default : Json) : Json :=
  safeGetGo default (pySplitDot path) obj

/-- Model of the Python membership test `needle in x` for a string
needle: key membership for dicts, element equality for lists, substring
for strings; any other value raises `TypeError`, modelled as an
error. -/
def pyIn (needle : String) : Json → Except Unit Bool
  | .obj fs => .ok (fs.any (fun p => p.1 = needle))
  | .arr xs => .ok (xs.any (fun j => pyEq j (.str needle)))
  | .str s => .ok (charsContains s.toList needle.toList)
  | _ => .error ()

/-- Model of `validate_json_schema` (`data_loader.py` lines 32 to 63).
The input is the parsed document's dict (the function's annotated
parameter type).  The two critical-field membership tests on the first
question use Python `in`, which raises on a non-container first
question; that possibility is the reason for the `Except`. -/
def validate_json_schema (data : List (String × Json)) : Except Unit (List String) :=
  match data.lookup "questions" with
  | none => .ok ["questions"]
  | some qv =>
    match qv with
    | .arr qs =>
      match qs with
      | [] => .ok ["questions (list is empty)"]
      | q0 :: _ =>
        match pyIn "question_no" q0 with
        | .error e => .error e
        | .ok b1 =>
          match pyIn "answer" q0 with
          | .error e => .error e
          | .ok b2 =>
            .ok ((if b1 then [] else ["questions[0].question_no"]) ++
                 (if b2 then [] else ["questions[0].answer"]))
    | _ => .ok ["questions (must be a list)"]

/-- Flattened record, one per question: the fixed column set built by
`normalize_questions` (`data_loader.py` lines 109 to 144).  Fields keep
the duck-typed `Json` values the source stores, except `confidence`,
which the source immediately coerces to a number for the whole column
(lines 150 to 151). -/
structure Record where
  question_no : Json
  depth : Json
  answer_label : Json
  answer_text : Json
  provided_key_label : Json
  first_guess : Json
  final_decision : Json
  override_key : Json
  mismatch : Json
  illegible : Json
  mixed_lang : Json
  confidence : Frac
  runner_up : Json
  has_images : Json
  version : Json
  why : Json
  findings : Json
  others : Json
  raw : Json

/-- Row built from one question dict (`data_loader.py` lines 109 to
144).  The `confidence` field fuses line 130 (`q.get('confidence',
0.0)`) with the element-wise column coercion of lines 150 to 151
(`pd.to_numeric(..., errors='coerce').fillna(0.0)`), which is the same
per-row computation. -/
def mkRecord (data : List (String × Json)) (qf : List (String × Json)) : Record :=
  let q := Json.obj qf
  { question_no := (qf.lookup "question_no").getD (.str "")
    depth := (qf.lookup "depth").getD (safe_get (.obj data) "defaults.depth" (.str ""))
    answer_label := safe_get q "answer.label" (.str "")
    answer_text := safe_get q "answer.text" (.str "")
    provided_key_label := safe_get q "rethink.provided_key.label" (.str "")
    first_guess := safe_get q "rethink.first_guess" (.str "")
    final_decision := safe_get q "rethink.final_decision" (.str "")
    override_key := safe_get q "rethink.override_key" (.bool false)
    mismatch := safe_get q "rethink.mismatch" (.bool false)
    illegible := safe_get q "flags.illegible" (.bool false)
    mixed_lang := safe_get q "flags.mixed_lang" (.bool false)
    confidence := (toNumericOpt ((qf.lookup "confidence").getD (.num (Frac.ofInt 0)))).getD (Frac.ofInt 0)
    runner_up := (qf.lookup "runner_up").getD (.str "")
    has_images := safe_get q "metadata.input_metadata.has_images" (.bool false)
    version := safe_get q "metadata.version" (.str "")
    why := (qf.lookup "why").getD (.arr [])
    findings := (qf.lookup "findings").getD (.arr [])
    others := (qf.lookup "others").getD (.arr [])
    raw := q }

/-- One iteration of the `for q in questions` loop: `q.get(...)`
raises `AttributeError` when `q` is not a dict. -/
def normalizeQ (data : List (String × Json)) : Json → Except Unit Record
  | .obj qf => .ok (mkRecord data qf)
  | _ => .error ()

/-- The `rows` loop of `normalize_questions` (`data_loader.py` lines
107 to 145), in input order. -/
def normalizeRows (data : List (String × Json)) : List Json → Except Unit (List Record)
  | [] => .ok []
  | q :: qs => do
    let r ← normalizeQ data q
    let rest ← normalizeRows data qs
    .ok (r :: rest)

/-- Model of Python iteration over the `questions` value: lists yield
their elements, strings their characters, dicts their keys, and any
other value raises `TypeError`. -/
def pyIterate : Json → Except Unit (List Json)
  | .arr xs => .ok xs
  | .str s => .ok (s.toList.map (fun c => Json.str (String.mk [c])))
  | .obj fs => .ok (fs.map (fun p => Json.str p.1))
  | _ => .error ()

/-- Model of `normalize_questions` (`data_loader.py` lines 96 to 153):
`data.get('questions', [])`, iterate, build one row per question. -/
def normalize_questions (data : List (String × Json)) : Except Unit (List Record) := do
  let qs ← pyIterate ((data.lookup "questions").getD (.arr []))
  normalizeRows data qs

/-- Model of `search_text_fields` (`data_loader.py` lines 173 to 213):
case-insensitive substring scan of `answer_text`, then each entry of
the `why` and `findings` lists, then the `text` and `reason` fields of
each dict entry of `others`; non-list fields and non-dict `others`
entries are skipped by the `isinstance` guards.  The source's early
`return True` statements are the short-circuit disjunction written
here. -/
def search_text_fields (row : Record) (search_term : String) : Bool :=
  let t := lowerChars search_term.toList
  charsContains (lowerChars (pyStr row.answer_text).toList) t ||
  (match row.why with
    | .arr xs => xs.any (fun item => charsContains (lowerChars (pyStr item).toList) t)
    | _ => false) ||
  (match row.findings with
    | .arr xs => xs.any (fun item => charsContains (lowerChars (pyStr item).toList) t)
    | _ => false) ||
  (match row.others with
    | .arr xs => xs.any (fun o =>
        match o with
        | .obj fs =>
          charsContains (lowerChars (pyStr ((fs.lookup "text").getD (.str ""))).toList) t ||
          charsContains (lowerChars (pyStr ((fs.lookup "reason").getD (.str ""))).toList) t
        | _ => false)
    | _ => false)

/-! ## sidebar.py -/

/-- Filter criteria dict produced by `build_sidebar` and consumed by
`apply_filters` (`sidebar.py` lines 137 to 149): the question range and
confidence range sliders are always present (they have no inactive
state), the tri-state radios hold `"All"`, `"Yes"` or `"No"`, and the
multiselects hold string lists. -/
structure Filters where
  question_range : Frac × Frac
  has_images : String
  final_decision : List String
  illegible : String
  mixed_lang : String
  depth : List String
  confidence_range : Frac × Frac
  search_term : String

/-- The boolean series of the range step: the coerced question number
lies in the inclusive range; NaN (`none`) fails both comparisons. -/
def qnumPred (q_range : Frac × Frac) : Option Frac → Bool
  | some v => q_range.1.le v && v.le q_range.2
  | none => false

/-- Question-range step of `apply_filters` (`sidebar.py` lines 164 to
176).  The source assigns a `_q_num` column on the copied frame with
`pd.to_numeric(filtered['question_no'], errors='coerce')`, keeps the
rows whose `_q_num` lies in the inclusive range (a NaN fails both
comparisons, so an unparseable `question_no` drops its row), then drops
the helper column.  With `errors='coerce'` the conversion never raises,
so the `except` branch of the source (index-based `iloc` slicing) is
unreachable and does not appear in this model. -/
def rangeStep (rs : List Record) (q_range : Frac × Frac) : List Record :=
  ((rs.map (fun r => (r, toNumericOpt r.question_no))).filter
    (fun p => qnumPred q_range p.2)).map Prod.fst

/-- Model of `apply_filters` (`sidebar.py` lines 152 to 217): the
pipeline of filter steps in source order.  The initial `df.copy()` is
the identity on the value of the frame; it matters only in that the
`_q_num` column assignment inside `rangeStep` targets the copy, never
the caller's frame. -/
def apply_filters (df : List Record) (filters : Filters) : List Record :=
  let filtered := df
  let filtered := rangeStep filtered filters.question_range
  let filtered :=
    if filters.has_images ≠ "All" then
      filtered.filter (fun r => pyEq r.has_images (.bool (filters.has_images = "Yes")))
    else filtered
  let filtered :=
    if ¬ filters.final_decision.contains "All" ∧ filters.final_decision.length > 0 then
      filtered.filter (fun r => filters.final_decision.any (fun s => pyEq r.final_decision (.str s)))
    else filtered
  let filtered :=
    if filters.illegible ≠ "All" then
      filtered.filter (fun r => pyEq r.illegible (.bool (filters.illegible = "Yes")))
    else filtered
  let filtered :=
    if filters.mixed_lang ≠ "All" then
      filtered.filter (fun r => pyEq r.mixed_lang (.bool (filters.mixed_lang = "Yes")))
    else filtered
  let filtered :=
    if filters.depth.length > 0 then
      filtered.filter (fun r => filters.depth.any (fun s => pyEq r.depth (.str s)))
    else filtered
  let filtered :=
    filtered.filter (fun r =>
      filters.confidence_range.1.le r.confidence && r.confidence.le filters.confidence_range.2)
  let filtered :=
    if ¬ (stripChars filters.search_term.toList).isEmpty then
      filtered.filter (fun r => search_text_fields r filters.search_term)
    else filtered
  filtered

/-! ## exporters.py -/

/-- Round a fraction to the nearest integer, ties to even (the rounding
of `pandas.Series.round`, which follows IEEE round-half-even; floats
are modelled as exact fractions here). -/
def roundHalfEven (x : Frac) : Int :=
  let f := x.n.fdiv x.d
  let r := x.n - f * x.d
  if 2 * r < x.d then f
  else if x.d < 2 * r then f + 1
  else if f % 2 = 0 then f else f + 1

/-- Round to two decimal places (`.round(2)`). -/
def round2 (x : Frac) : Frac := ⟨roundHalfEven (x.mul (Frac.ofInt 100)), 100⟩

/-- The fixed column set selected by `export_to_csv`
(`exporters.py` lines 20 to 32), in source order. -/
def csvColumns : List String :=
  ["question_no", "answer_label", "answer_text", "provided_key_label",
   "final_decision", "confidence", "depth", "has_images", "illegible",
   "mixed_lang", "runner_up"]

/-- One row of the projected export frame: the eleven selected columns,
with `confidence` numeric. -/
structure CsvRow where
  question_no : Json
  answer_label : Json
  answer_text : Json
  provided_key_label : Json
  final_decision : Json
  confidence : Frac
  depth : Json
  has_images : Json
  illegible : Json
  mixed_lang : Json
  runner_up : Json

/-- Model of `export_to_csv` (`exporters.py` lines 10 to 37): select
the eleven display columns into a copy, then replace the confidence
column by `(confidence * 100).round(2)`; the result is the header row
plus one row per record in input order (`to_csv(index=False)`
serializes exactly this table; the byte-level CSV quoting is pandas
library behavior, outside this model). -/
def export_to_csv (df : List Record) : List String × List CsvRow :=
  let export_df := df.map (fun r =>
    { question_no := r.question_no
      answer_label := r.answer_label
      answer_text := r.answer_text
      provided_key_label := r.provided_key_label
      final_decision := r.final_decision
      confidence := r.confidence
      depth := r.depth
      has_images := r.has_images
      illegible := r.illegible
      mixed_lang := r.mixed_lang
      runner_up := r.runner_up : CsvRow })
  let export_df := export_df.map (fun row => { row with confidence := round2 (row.confidence.mul (Frac.ofInt 100)) })
  (csvColumns, export_df)

/-- Model of `export_to_json` (`exporters.py` lines 40 to 64): collect
each row's `_raw` value, skipping falsy ones (`if raw_data:`), and wrap
them with the metadata object.  The wall-clock export timestamp is
passed in as a parameter. -/
def export_to_json (df : List Record) (now : String) : Json :=
  let raw_questions := (df.map Record.raw).filter pyTruthy
  .obj [("questions", .arr raw_questions),
        ("metadata", .obj [("total_exported", .num (Frac.ofInt raw_questions.length)),
                           ("export_timestamp", .str now)])]

/-! ## Claim-side definitions

Definitions in this section follow the wording of the specification
(they are the comparison side of refinement claims), not the source. -/

/-- Spec-side traversal of `safe_get` as the specification words it:
return the default as soon as the current value is not a mapping, the
key is absent, or the value found is null. -/
def specSafeGet (default : Json) : List String → Json → Json
  | [], current => current
  | key :: ks, current =>
    match current with
    | .obj fs =>
      match fs.lookup key with
      | none => default
      | some v => if v.isNull then default else specSafeGet default ks v
    | _ => default

/-- Key-membership test on a dict value. -/
def Json.hasKey (j : Json) (k : String) : Bool :=
  match j with
  | .obj fs => fs.any (fun p => p.1 = k)
  | _ => false

/-- Spec-side list of missing-field descriptors produced by the
validation rules as the claim words them. -/
def claimMissingList (data : List (String × Json)) : List String :=
  match data.lookup "questions" with
  | none => ["questions"]
  | some (.arr []) => ["questions (list is empty)"]
  | some (.arr (q0 :: _)) =>
    (if q0.hasKey "question_no" then [] else ["questions[0].question_no"]) ++
    (if q0.hasKey "answer" then [] else ["questions[0].answer"])
  | some _ => ["questions (must be a list)"]

/-- Spec-side acceptance of a document: `questions` present, a
non-empty list, and its first element carries both critical fields. -/
def acceptedDoc (data : List (String × Json)) : Prop :=
  match data.lookup "questions" with
  | some (.arr (q0 :: _)) => q0.hasKey "question_no" = true ∧ q0.hasKey "answer" = true
  | _ => False

/-- The first question of the document, when one exists, is a dict
(this is the shape the data model gives every Question). -/
def firstQuestionIsObj (data : List (String × Json)) : Prop :=
  match data.lookup "questions" with
  | some (.arr (q0 :: _)) => q0.isObj = true
  | _ => True

/-- Decision-set criterion is inactive: `"All"` selected or empty
selection. -/
def decisionInactive (vs : List String) : Prop := vs.contains "All" = true ∨ vs = []

/-- Search criterion is inactive: term empty or whitespace-only. -/
def searchInactive (t : String) : Prop := stripChars t.toList = []

/-- Conjunction of two filter criteria dicts: for each optional
criterion take the active side (preferring the first), and keep the
shared always-on ranges of the first. -/
def conjFilters (A B : Filters) : Filters :=
  { question_range := A.question_range
    has_images := if A.has_images ≠ "All" then A.has_images else B.has_images
    final_decision :=
      if ¬ A.final_decision.contains "All" ∧ A.final_decision.length > 0 then A.final_decision
      else B.final_decision
    illegible := if A.illegible ≠ "All" then A.illegible else B.illegible
    mixed_lang := if A.mixed_lang ≠ "All" then A.mixed_lang else B.mixed_lang
    depth := if A.depth.length > 0 then A.depth else B.depth
    confidence_range := A.confidence_range
    search_term :=
      if ¬ (stripChars A.search_term.toList).isEmpty then A.search_term else B.search_term }

/-- Per-record question-range predicate of the filter engine. -/
def rangeAtom (q_range : Frac × Frac) (r : Record) : Bool :=
  qnumPred q_range (toNumericOpt r.question_no)

/-- Per-record tri-state predicate (`"All"` means no constraint). -/
def triAtom (get : Record → Json) (v : String) (r : Record) : Bool :=
  if v ≠ "All" then pyEq (get r) (.bool (v = "Yes")) else true

/-- Per-record decision-set predicate. -/
def decAtom (vs : List String) (r : Record) : Bool :=
  if ¬ vs.contains "All" ∧ vs.length > 0 then vs.any (fun s => pyEq r.final_decision (.str s))
  else true

/-- Per-record depth-set predicate. -/
def depAtom (vs : List String) (r : Record) : Bool :=
  if vs.length > 0 then vs.any (fun s => pyEq r.depth (.str s)) else true

/-- Per-record confidence-range predicate. -/
def confAtom (cr : Frac × Frac) (r : Record) : Bool :=
  cr.1.le r.confidence && r.confidence.le cr.2

/-- Per-record text-search predicate (empty or whitespace-only term
means no constraint). -/
def searchAtom (term : String) (r : Record) : Bool :=
  if ¬ (stripChars term.toList).isEmpty then search_text_fields r term else true

/-- Conjunction of all per-record predicates of the filter engine. -/
def recordPred (F : Filters) (r : Record) : Bool :=
  rangeAtom F.question_range r && triAtom Record.has_images F.has_images r &&
  decAtom F.final_decision r && triAtom Record.illegible F.illegible r &&
  triAtom Record.mixed_lang F.mixed_lang r && depAtom F.depth r &&
  confAtom F.confidence_range r && searchAtom F.search_term r

/-- Replace non-list `why`, `findings` and `others` fields by empty
lists and drop non-dict `others` entries: the fields and entries the
`isinstance` guards of the text search skip. -/
def sanitizeSearchFields (r : Record) : Record :=
  { r with
    why := match r.why with | .arr xs => .arr xs | _ => .arr []
    findings := match r.findings with | .arr xs => .arr xs | _ => .arr []
    others := match r.others with | .arr xs => .arr (xs.filter Json.isObj) | _ => .arr [] }

/-- The given record with its four searched fields replaced by the
given well-typed values (a string, string lists, and text/reason
pairs); all other fields are arbitrary. -/
def mkSearchRecord (base : Record) (ans : String) (why find : List String)
    (others : List (String × String)) : Record :=
  { base with
    answer_text := .str ans
    why := .arr (why.map Json.str)
    findings := .arr (find.map Json.str)
    others := .arr (others.map (fun p => Json.obj [("text", .str p.1), ("reason", .str p.2)])) }

/-- The term occurs case-insensitively as a substring of `s`. -/
def occursCI (term s : String) : Prop :=
  charsContains (lowerChars s.toList) (lowerChars term.toList) = true

/-! ## Helper lemmas -/

theorem safeGetGo_self (D : Json) (ks : List String) (h : D.isObj = false) :
    safeGetGo D ks D = D := by
  cases ks with
  | nil => rfl
  | cons k ks =>
    cases D with
    | obj fs => simp [Json.isObj] at h
    | null => rfl
    | bool b => rfl
    | num q => rfl
    | str s => rfl
    | arr xs => rfl

theorem safeGetGo_eq_spec (D : Json) (h : D.isObj = false) :
    ∀ (ks : List String) (cur : Json), safeGetGo D ks cur = specSafeGet D ks cur := by
  intro ks
  induction ks with
  | nil => intro cur; rfl
  | cons k ks ih =>
    intro cur
    cases cur with
    | obj fs =>
      cases hl : fs.lookup k with
      | none =>
        by_cases hN : D.isNull = true
        · simp [safeGetGo, specSafeGet, hl, hN]
        · simp [safeGetGo, specSafeGet, hl, hN, safeGetGo_self D ks h]
      | some v =>
        by_cases hN : v.isNull = true
        · simp [safeGetGo, specSafeGet, hl, hN]
        · simp [safeGetGo, specSafeGet, hl, hN, ih]
    | null => rfl
    | bool b => rfl
    | num q => rfl
    | str s => rfl
    | arr xs => rfl

theorem rangeStep_eq (rs : List Record) (qr : Frac × Frac) :
    rangeStep rs qr = rs.filter (rangeAtom qr) := by
  induction rs with
  | nil => rfl
  | cons r rs ih =>
    simp only [rangeStep, List.map_cons, List.filter_cons] at ih ⊢
    cases h : qnumPred qr (toNumericOpt r.question_no) with
    | true => simp [rangeAtom, h, ih]
    | false => simp [rangeAtom, h, ih]

theorem step_ite (c : Prop) [Decidable c] (p : Record → Bool) (l : List Record) :
    (if c then l.filter p else l) = l.filter (fun r => if c then p r else true) := by
  by_cases h : c
  · simp [h]
  · simp [h]

theorem apply_filters_eq_filter (df : List Record) (F : Filters) :
    apply_filters df F = df.filter (recordPred F) := by
  simp only [apply_filters, rangeStep_eq]
  simp only [step_ite]
  simp only [List.filter_filter]
  apply List.filter_congr
  intro r _
  simp only [recordPred, triAtom, decAtom, depAtom, confAtom, searchAtom]
  simp [Bool.and_assoc, Bool.and_comm, Bool.and_left_comm]

theorem normalizeRows_ok (data : List (String × Json)) (l : List (List (String × Json))) :
    normalizeRows data (l.map Json.obj) = .ok (l.map (mkRecord data)) := by
  induction l with
  | nil => rfl
  | cons qf l ih =>
    simp only [List.map_cons, normalizeRows, normalizeQ, ih]
    rfl

theorem normalize_questions_ok (data : List (String × Json))
    (l : List (List (String × Json)))
    (h : data.lookup "questions" = some (.arr (l.map Json.obj))) :
    normalize_questions data = .ok (l.map (mkRecord data)) := by
  simp only [normalize_questions, h, Option.getD_some, pyIterate]
  simpa using normalizeRows_ok data l

theorem triAtom_and (get : Record → Json) (vA vB : String) (r : Record)
    (h : vA = "All" ∨ vB = "All") :
    (triAtom get vA r && triAtom get vB r) =
      triAtom get (if vA ≠ "All" then vA else vB) r := by
  rcases h with h | h
  · subst h; simp [triAtom]
  · subst h
    by_cases hA : vA = "All"
    · subst hA; simp [triAtom]
    · simp [triAtom, hA]

theorem decAtom_and (vsA vsB : List String) (r : Record)
    (h : decisionInactive vsA ∨ decisionInactive vsB) :
    (decAtom vsA r && decAtom vsB r) =
      decAtom (if ¬ vsA.contains "All" ∧ vsA.length > 0 then vsA else vsB) r := by
  by_cases hA : ¬ vsA.contains "All" = true ∧ vsA.length > 0
  · have hB : decisionInactive vsB := by
      rcases h with h | h
      · rcases h with h | h
        · exact absurd h hA.1
        · subst h; simp at hA
      · exact h
    have hBtrue : decAtom vsB r = true := by
      have hB2 : "All" ∈ vsB ∨ vsB = [] := by
        rcases hB with hb | hb
        · exact Or.inl (by simpa using hb)
        · exact Or.inr hb
      simp only [decAtom]
      simp
      exact Or.inl hB2
    rw [if_pos hA, hBtrue, Bool.and_true]
  · have hAtrue : decAtom vsA r = true := by
      have hA2 : "All" ∈ vsA ∨ vsA = [] := by
        rcases not_and_or.mp hA with h1 | h1
        · exact Or.inl (by simpa using not_not.mp h1)
        · exact Or.inr (List.length_eq_zero.mp (Nat.eq_zero_of_not_pos h1))
      simp only [decAtom]
      simp
      exact Or.inl hA2
    rw [if_neg hA, hAtrue, Bool.true_and]

theorem depAtom_and (vsA vsB : List String) (r : Record)
    (h : vsA = [] ∨ vsB = []) :
    (depAtom vsA r && depAtom vsB r) = depAtom (if vsA.length > 0 then vsA else vsB) r := by
  rcases h with h | h
  · subst h; simp [depAtom]
  · subst h
    by_cases hA : vsA.length > 0
    · simp [depAtom, hA]
    · simp [depAtom, hA]

theorem searchAtom_and (tA tB : String) (r : Record)
    (h : stripChars tA.toList = [] ∨ stripChars tB.toList = []) :
    (searchAtom tA r && searchAtom tB r) =
      searchAtom (if ¬ (stripChars tA.toList).isEmpty then tA else tB) r := by
  by_cases hA : (stripChars tA.toList).isEmpty = true
  · have h1 : searchAtom tA r = true := by
      have hx : stripChars tA.toList = [] := List.isEmpty_iff.mp hA
      simp only [searchAtom]
      simp
      exact Or.inl hx
    have h2 : (if ¬ (stripChars tA.toList).isEmpty then tA else tB) = tB :=
      if_neg (not_not_intro hA)
    rw [h1, Bool.true_and, h2]
  · have hB : stripChars tB.toList = [] := by
      rcases h with h | h
      · exact absurd (by rw [h]; rfl) hA
      · exact h
    have h1 : searchAtom tB r = true := by
      simp only [searchAtom]
      simp
      exact Or.inl hB
    have h2 : (if ¬ (stripChars tA.toList).isEmpty then tA else tB) = tA := if_pos hA
    rw [h1, Bool.and_true, h2]

theorem any_eq_any_filter (p f : Json → Bool)
    (hf : ∀ x, p x = false → f x = false) (xs : List Json) :
    xs.any f = (xs.filter p).any f := by
  induction xs with
  | nil => rfl
  | cons x xs ih =>
    cases hp : p x with
    | true => rw [List.filter_cons_of_pos hp, List.any_cons, List.any_cons, ih]
    | false =>
      rw [List.filter_cons_of_neg (by simp [hp]), List.any_cons, hf x hp, Bool.false_or, ih]

theorem recordPred_and (A B : Filters) (r : Record)
    (hq : B.question_range = A.question_range)
    (hc : B.confidence_range = A.confidence_range)
    (h1 : A.has_images = "All" ∨ B.has_images = "All")
    (h2 : decisionInactive A.final_decision ∨ decisionInactive B.final_decision)
    (h3 : A.illegible = "All" ∨ B.illegible = "All")
    (h4 : A.mixed_lang = "All" ∨ B.mixed_lang = "All")
    (h5 : A.depth = [] ∨ B.depth = [])
    (h6 : stripChars A.search_term.toList = [] ∨ stripChars B.search_term.toList = []) :
    (recordPred A r && recordPred B r) = recordPred (conjFilters A B) r := by
  simp only [recordPred, conjFilters]
  rw [hq, hc]
  rw [← triAtom_and Record.has_images A.has_images B.has_images r h1]
  rw [← decAtom_and A.final_decision B.final_decision r h2]
  rw [← triAtom_and Record.illegible A.illegible B.illegible r h3]
  rw [← triAtom_and Record.mixed_lang A.mixed_lang B.mixed_lang r h4]
  rw [← depAtom_and A.depth B.depth r h5]
  rw [← searchAtom_and A.search_term B.search_term r h6]
  simp [Bool.and_assoc, Bool.and_comm, Bool.and_left_comm, Bool.and_self]

theorem strs_any_iff (ss : List String) (t : List Char) :
    ((ss.map Json.str).any
        (fun item => charsContains (lowerChars (pyStr item).toList) t) = true) ↔
    (∃ s ∈ ss, charsContains (lowerChars s.toList) t = true) := by
  induction ss with
  | nil => simp
  | cons s ss ih =>
    simp only [List.map_cons, List.any_cons, Bool.or_eq_true, ih, List.mem_cons]
    constructor
    · rintro (h | ⟨q, hq, hcq⟩)
      · exact ⟨s, Or.inl rfl, h⟩
      · exact ⟨q, Or.inr hq, hcq⟩
    · rintro ⟨q, hq | hq, hcq⟩
      · subst hq; exact Or.inl hcq
      · exact Or.inr ⟨q, hq, hcq⟩

theorem others_any_iff (others : List (String × String)) (t : List Char) :
    ((others.map (fun p => Json.obj [("text", .str p.1), ("reason", .str p.2)])).any
        (fun o =>
          match o with
          | .obj fs =>
            charsContains (lowerChars (pyStr ((fs.lookup "text").getD (.str ""))).toList) t ||
            charsContains (lowerChars (pyStr ((fs.lookup "reason").getD (.str ""))).toList) t
          | _ => false) = true) ↔
    (∃ p ∈ others,
      charsContains (lowerChars p.1.toList) t = true ∨
      charsContains (lowerChars p.2.toList) t = true) := by
  induction others with
  | nil => simp
  | cons p ps ih =>
    simp only [List.map_cons, List.any_cons, Bool.or_eq_true, ih, List.mem_cons]
    constructor
    · rintro ((h | h) | ⟨q, hq, hcq⟩)
      · exact ⟨p, Or.inl rfl, Or.inl h⟩
      · exact ⟨p, Or.inl rfl, Or.inr h⟩
      · exact ⟨q, Or.inr hq, hcq⟩
    · rintro ⟨q, hq | hq, hcq⟩
      · subst hq
        rcases hcq with h | h
        · exact Or.inl (Or.inl h)
        · exact Or.inl (Or.inr h)
      · exact Or.inr ⟨q, hq, hcq⟩

/-! ## Claim theorems -/

/-- C2 (counterexample).  The claim says `safe_get(obj, path, D)`
returns `D` as soon as a key is absent, for every default `D`.  It
does not: on a missing key the source substitutes the default as the
current value and keeps traversing, so a mapping default is traversed
into.  Concretely, `safe_get({}, "a.b.c", {"b": {"c": 7}})` returns
`7`, not the default, refuting the claim (and its own particular case
`safe_get({}, "a.b.c", D) == D`) at this input. -/
theorem safe_get_mapping_default_cx :
    safe_get (.obj []) "a.b.c" (.obj [("b", .obj [("c", .num (Frac.ofInt 7))])]) =
      .num (Frac.ofInt 7) ∧
    specSafeGet (.obj [("b", .obj [("c", .num (Frac.ofInt 7))])]) (pySplitDot "a.b.c")
        (.obj []) =
      .obj [("b", .obj [("c", .num (Frac.ofInt 7))])] ∧
    Json.num (Frac.ofInt 7) ≠ .obj [("b", .obj [("c", .num (Frac.ofInt 7))])] := by
  refine ⟨rfl, rfl, ?_⟩
  simp

/-- C2 (amended).  For every nested mapping, dotted path, and
non-mapping default `D`: `safe_get` traverses one dot-segment at a
time and returns `D` as soon as the current value is not a mapping, or
the key is absent, or the value found is null, and never raises (it is
total by construction).  When the key is absent the source substitutes
`D` as the current value and continues, which for a mapping `D` can
traverse into the default (see the counterexample); for non-mapping
defaults this agrees with the claimed early return, stated here as
equality with the spec-side traversal `specSafeGet`.  The claim's
particular cases hold: the first for non-mapping defaults, the other
two for every default. -/
theorem safe_get_spec_amended :
    (∀ (obj : Json) (path : String) (D : Json), D.isObj = false →
        safe_get obj path D = specSafeGet D (pySplitDot path) obj) ∧
    (∀ D : Json, D.isObj = false → safe_get (.obj []) "a.b.c" D = D) ∧
    (∀ D : Json,
        safe_get (.obj [("a", .obj [("b", .obj [("c", .num (Frac.ofInt 5))])])]) "a.b.c" D =
          .num (Frac.ofInt 5)) ∧
    (∀ D : Json, safe_get (.obj [("a", .obj [("b", .null)])]) "a.b.c" D = D) := by
  refine ⟨?_, ?_, ?_, ?_⟩
  · intro obj path D hD
    exact safeGetGo_eq_spec D hD (pySplitDot path) obj
  · intro D hD
    show safeGetGo D ["a", "b", "c"] (.obj []) = D
    have h0 : safeGetGo D ["b", "c"] D = D := safeGetGo_self D ["b", "c"] hD
    by_cases hN : D.isNull = true
    · simp [safeGetGo, hN]
    · simp [safeGetGo, hN]
      cases D with
      | obj fs => simp [Json.isObj] at hD
      | null => simp [Json.isNull] at hN
      | bool b => rfl
      | num q => rfl
      | str s => rfl
      | arr xs => rfl
  · intro D; rfl
  · intro D; rfl

/-- C2 (witness for the amended theorem) at the default `"z"`. -/
theorem safe_get_spec_amended_witness :
    (Json.str "z").isObj = false ∧
    safe_get (.obj []) "a.b.c" (.str "z") =
      specSafeGet (.str "z") (pySplitDot "a.b.c") (.obj []) :=
  ⟨rfl, safe_get_spec_amended.1 (.obj []) "a.b.c" (.str "z") rfl⟩

/-- C3 (counterexample).  The claim says `validate_json_schema`
returns the rule-produced descriptor list for every parsed document.
When the first question is a non-container value, the membership test
`'question_no' not in sample_q` raises `TypeError` instead of
returning: on the document with `questions = [5]` the function raises
(modelled as `Except.error`), so no descriptor list is returned. -/
theorem validate_json_schema_raises_cx :
    validate_json_schema [("questions", .arr [.num (Frac.ofInt 5)])] = .error () := rfl

/-- C3 (amended).  For every parsed document whose first question, when
one is reached, is a mapping: `validate_json_schema` returns exactly
the descriptor list of the claim's short-circuiting rules (absent
`questions` key, non-list, empty list, then both critical fields of the
first question checked in order), and that list is empty exactly when
the document is accepted.  If the first question is a non-container
value the function instead raises `TypeError` (see the
counterexample). -/
theorem validate_json_schema_rules (data : List (String × Json))
    (h : firstQuestionIsObj data) :
    validate_json_schema data = .ok (claimMissingList data) ∧
    (claimMissingList data = [] ↔ acceptedDoc data) := by
  unfold firstQuestionIsObj at h
  cases hl : data.lookup "questions" with
  | none => simp [validate_json_schema, claimMissingList, acceptedDoc, hl]
  | some qv =>
    rw [hl] at h
    cases qv with
    | arr qs =>
      cases qs with
      | nil => simp [validate_json_schema, claimMissingList, acceptedDoc, hl]
      | cons q0 rest =>
        cases q0 with
        | obj fs =>
          by_cases hk1 : fs.any (fun p => p.1 = "question_no") = true <;>
          by_cases hk2 : fs.any (fun p => p.1 = "answer") = true <;>
            simp [validate_json_schema, claimMissingList, acceptedDoc, hl, pyIn,
              Json.hasKey, hk1, hk2]
        | null => simp [Json.isObj] at h
        | bool b => simp [Json.isObj] at h
        | num q => simp [Json.isObj] at h
        | str s => simp [Json.isObj] at h
        | arr xs => simp [Json.isObj] at h
    | null => simp [validate_json_schema, claimMissingList, acceptedDoc, hl]
    | bool b => simp [validate_json_schema, claimMissingList, acceptedDoc, hl]
    | num q => simp [validate_json_schema, claimMissingList, acceptedDoc, hl]
    | str s => simp [validate_json_schema, claimMissingList, acceptedDoc, hl]
    | obj fs2 => simp [validate_json_schema, claimMissingList, acceptedDoc, hl]

/-- C3 (witness for the amended theorem): a document whose single
question carries `question_no` but not `answer` yields exactly the one
descriptor for `answer`. -/
theorem validate_json_schema_rules_witness :
    firstQuestionIsObj [("questions", .arr [.obj [("question_no", .str "1")]])] ∧
    validate_json_schema [("questions", .arr [.obj [("question_no", .str "1")]])] =
      .ok (claimMissingList [("questions", .arr [.obj [("question_no", .str "1")]])]) ∧
    claimMissingList [("questions", .arr [.obj [("question_no", .str "1")]])] =
      ["questions[0].answer"] :=
  ⟨by simp [firstQuestionIsObj, Json.isObj],
   (validate_json_schema_rules [("questions", .arr [.obj [("question_no", .str "1")]])]
      (by simp [firstQuestionIsObj, Json.isObj])).1,
   rfl⟩

/-- C4 (counterexample).  The claim says `normalize_questions` is
total (never raising) for every document with N questions.  A question
that is not a mapping makes `q.get('question_no', ...)` raise
`AttributeError`: on the document with `questions = ["hi"]` the
function raises (modelled as `Except.error`) instead of producing one
record. -/
theorem normalize_questions_raises_cx :
    normalize_questions [("questions", .arr [.str "hi"])] = .error () := rfl

/-- C4 (amended).  For every document whose `questions` value is a
list of N mappings (the data model's Question shape),
`normalize_questions` is total and order-preserving: it returns
exactly the N records built by `mkRecord` in input order, never
raising and never dropping a record; a question whose `confidence`
field is the string `"bad"` (or is missing) yields a record with
confidence 0.0, and a question that omits `depth` receives
`safe_get(document, 'defaults.depth', '')`, the document's default
depth.  A non-mapping question instead raises `AttributeError` (see
the counterexample). -/
theorem normalize_questions_amended (data : List (String × Json))
    (l : List (List (String × Json)))
    (h : data.lookup "questions" = some (.arr (l.map Json.obj))) :
    normalize_questions data = .ok (l.map (mkRecord data)) ∧
    (l.map (mkRecord data)).length = l.length ∧
    (∀ qf, qf.lookup "confidence" = some (.str "bad") →
        (mkRecord data qf).confidence = Frac.ofInt 0) ∧
    (∀ qf, qf.lookup "confidence" = none →
        (mkRecord data qf).confidence = Frac.ofInt 0) ∧
    (∀ qf, qf.lookup "depth" = none →
        (mkRecord data qf).depth = safe_get (.obj data) "defaults.depth" (.str "")) := by
  refine ⟨normalize_questions_ok data l h, by simp, ?_, ?_, ?_⟩
  · intro qf hc
    simp only [mkRecord]
    rw [hc]
    rfl
  · intro qf hc
    simp only [mkRecord]
    rw [hc]
    rfl
  · intro qf hd
    simp only [mkRecord]
    rw [hd]
    rfl

/-- Concrete two-question document for the C4 witness: the first
question has a non-numeric confidence, the second is an empty mapping;
the document carries a default depth. -/
def c4doc : List (String × Json) :=
  [("questions", .arr [.obj [("question_no", .str "1"), ("confidence", .str "bad")], .obj []]),
   ("defaults", .obj [("depth", .str "deep")])]

/-- The two question dicts of `c4doc`. -/
def c4qs : List (List (String × Json)) :=
  [[("question_no", .str "1"), ("confidence", .str "bad")], []]

/-- C4 (witness for the amended theorem) at the concrete document. -/
theorem normalize_questions_amended_witness :
    c4doc.lookup "questions" = some (.arr (c4qs.map Json.obj)) ∧
    (normalize_questions c4doc = .ok (c4qs.map (mkRecord c4doc)) ∧
      (c4qs.map (mkRecord c4doc)).length = c4qs.length ∧
      (∀ qf, qf.lookup "confidence" = some (.str "bad") →
          (mkRecord c4doc qf).confidence = Frac.ofInt 0) ∧
      (∀ qf, qf.lookup "confidence" = none →
          (mkRecord c4doc qf).confidence = Frac.ofInt 0) ∧
      (∀ qf, qf.lookup "depth" = none →
          (mkRecord c4doc qf).depth = safe_get (.obj c4doc) "defaults.depth" (.str ""))) :=
  ⟨rfl, normalize_questions_amended c4doc c4qs rfl⟩

/-- Record with question number `"1"` and no other fields. -/
def c1r1 : Record := mkRecord [] [("question_no", .str "1")]

/-- Record with question number `"2"` and no other fields. -/
def c1r2 : Record := mkRecord [] [("question_no", .str "2")]

/-- Record with the non-numeric question number `"x"`. -/
def c1rx : Record := mkRecord [] [("question_no", .str "x")]

/-- Filter criteria that activate only the question range `[1, 2]`;
every optional criterion is inactive and the confidence range is the
full `[0, 1]`. -/
def c1filters : Filters :=
  { question_range := (Frac.ofInt 1, Frac.ofInt 2)
    has_images := "All"
    final_decision := ["All"]
    illegible := "All"
    mixed_lang := "All"
    depth := []
    confidence_range := (Frac.ofInt 0, Frac.ofInt 1)
    search_term := "" }

/-- C1 (evaluation at the failing input).  On records with question
numbers `["1", "2", "x"]` and range `[1, 2]`, `apply_filters` keeps the
records at positions 0 and 1 (numeric matches; the unparseable `"x"`
is coerced to NaN and dropped), not the records at positions 1 and 2
that the claimed whole-collection positional fallback would keep: with
`errors='coerce'` the conversion never raises, so the `except` branch
of `sidebar.py` lines 174 to 176 (its comment announces the index
fallback) is unreachable. -/
theorem range_filter_coerces_not_positional :
    apply_filters [c1r1, c1r2, c1rx] c1filters = [c1r1, c1r2] ∧
    ([c1r1, c1r2] : List Record) ≠ [c1r2, c1rx] := by
  refine ⟨rfl, ?_⟩
  intro h
  have h2 : c1r1 = c1r2 := Option.some.inj (congrArg List.head? h)
  have h3 : c1r1.question_no = c1r2.question_no := congrArg Record.question_no h2
  have h4 : Json.str "1" = Json.str "2" := h3
  simp at h4

/-- C9.  `apply_filters` treats its input as read-only: the source
copies the frame before the only mutating operations (the `_q_num`
column assignment and drop act on the copy, `sidebar.py` lines 162,
168, 173), so in this embedding the function is pure, and the result
is the subsequence of the unchanged input records selected by the
conjunction of the per-record predicates — a new derived subset in the
original relative order, with every surviving record equal to its
input record (in particular no `_q_num` residue). -/
theorem apply_filters_readonly (df : List Record) (F : Filters) :
    apply_filters df F = df.filter (recordPred F) ∧ (apply_filters df F).Sublist df := by
  refine ⟨apply_filters_eq_filter df F, ?_⟩
  rw [apply_filters_eq_filter df F]
  exact List.filter_sublist df

/-- C5.  For any record set and any two filter criteria dicts that
share the always-on ranges and are independent (each optional
criterion is active in at most one of the two), applying them in
sequence equals applying their conjunction once; the result is the
filter of the record set by the logical AND of the two per-record
predicates (never OR), and it is a subsequence of the input, so
surviving records keep their original relative order. -/
theorem apply_filters_conjunction (rs : List Record) (A B : Filters)
    (hq : B.question_range = A.question_range)
    (hc : B.confidence_range = A.confidence_range)
    (h1 : A.has_images = "All" ∨ B.has_images = "All")
    (h2 : decisionInactive A.final_decision ∨ decisionInactive B.final_decision)
    (h3 : A.illegible = "All" ∨ B.illegible = "All")
    (h4 : A.mixed_lang = "All" ∨ B.mixed_lang = "All")
    (h5 : A.depth = [] ∨ B.depth = [])
    (h6 : searchInactive A.search_term ∨ searchInactive B.search_term) :
    apply_filters (apply_filters rs A) B = apply_filters rs (conjFilters A B) ∧
    apply_filters rs (conjFilters A B) =
      rs.filter (fun r => recordPred A r && recordPred B r) ∧
    (apply_filters rs (conjFilters A B)).Sublist rs := by
  have hpt : ∀ r, (recordPred A r && recordPred B r) = recordPred (conjFilters A B) r :=
    fun r => recordPred_and A B r hq hc h1 h2 h3 h4 h5 h6
  have e2 : apply_filters rs (conjFilters A B) =
      rs.filter (fun r => recordPred A r && recordPred B r) := by
    rw [apply_filters_eq_filter]
    exact (List.filter_congr (fun r _ => hpt r)).symm
  refine ⟨?_, e2, ?_⟩
  · rw [apply_filters_eq_filter, apply_filters_eq_filter, List.filter_filter, e2]
    apply List.filter_congr
    intro r _
    exact Bool.and_comm _ _
  · rw [e2]
    exact List.filter_sublist rs

/-- Criteria activating only the decision filter. -/
def c5A : Filters :=
  { question_range := (Frac.ofInt 0, Frac.ofInt 9)
    has_images := "All"
    final_decision := ["agree_with_key"]
    illegible := "All"
    mixed_lang := "All"
    depth := []
    confidence_range := (Frac.ofInt 0, Frac.ofInt 1)
    search_term := "" }

/-- Criteria activating only the depth filter. -/
def c5B : Filters :=
  { question_range := (Frac.ofInt 0, Frac.ofInt 9)
    has_images := "All"
    final_decision := ["All"]
    illegible := "All"
    mixed_lang := "All"
    depth := ["deep"]
    confidence_range := (Frac.ofInt 0, Frac.ofInt 1)
    search_term := "" }

/-- C5 (witness) at two concrete independent criteria dicts. -/
theorem apply_filters_conjunction_witness :
    c5B.question_range = c5A.question_range ∧
    c5B.confidence_range = c5A.confidence_range ∧
    (c5A.has_images = "All" ∨ c5B.has_images = "All") ∧
    (decisionInactive c5A.final_decision ∨ decisionInactive c5B.final_decision) ∧
    (c5A.illegible = "All" ∨ c5B.illegible = "All") ∧
    (c5A.mixed_lang = "All" ∨ c5B.mixed_lang = "All") ∧
    (c5A.depth = [] ∨ c5B.depth = []) ∧
    (searchInactive c5A.search_term ∨ searchInactive c5B.search_term) ∧
    (apply_filters (apply_filters [c1r1, c1r2, c1rx] c5A) c5B =
        apply_filters [c1r1, c1r2, c1rx] (conjFilters c5A c5B) ∧
      apply_filters [c1r1, c1r2, c1rx] (conjFilters c5A c5B) =
        [c1r1, c1r2, c1rx].filter (fun r => recordPred c5A r && recordPred c5B r) ∧
      (apply_filters [c1r1, c1r2, c1rx] (conjFilters c5A c5B)).Sublist [c1r1, c1r2, c1rx]) :=
  ⟨rfl, rfl, Or.inl rfl, Or.inr (Or.inl rfl), Or.inl rfl, Or.inl rfl, Or.inl rfl, Or.inl rfl,
   apply_filters_conjunction [c1r1, c1r2, c1rx] c5A c5B rfl rfl (Or.inl rfl)
     (Or.inr (Or.inl rfl)) (Or.inl rfl) (Or.inl rfl) (Or.inl rfl) (Or.inl rfl)⟩

/-- C6.  For every record whose searched fields are well-typed
(answer text a string, `why` and `findings` lists of strings, `others`
a list of text/reason dicts; all remaining fields arbitrary) and every
term: `search_text_fields`
returns true exactly when the term occurs case-insensitively as a
substring of the answer text, of some string in `why`, of some string
in `findings`, or of the text or reason field of some `others` entry
(scanned in that order, short-circuiting on the first hit — the
source's early returns are the short-circuit disjunction).  In
particular a record with others `[{"text": "Foo BAR", "reason": ""}]`
matches the term `"bar"`. -/
theorem search_text_fields_iff :
    (∀ (base : Record) (ans term : String) (why find : List String)
        (others : List (String × String)),
      (search_text_fields (mkSearchRecord base ans why find others) term = true ↔
        (occursCI term ans ∨ (∃ s ∈ why, occursCI term s) ∨ (∃ s ∈ find, occursCI term s) ∨
          (∃ p ∈ others, occursCI term p.1 ∨ occursCI term p.2)))) ∧
    search_text_fields (mkSearchRecord (mkRecord [] []) "" [] [] [("Foo BAR", "")]) "bar" =
      true := by
  constructor
  · intro base ans term why find others
    simp only [search_text_fields, mkSearchRecord, Bool.or_eq_true]
    rw [strs_any_iff why (lowerChars term.toList), strs_any_iff find (lowerChars term.toList),
      others_any_iff others (lowerChars term.toList)]
    simp only [occursCI, pyStr]
    simp only [or_assoc]
  · rfl

/-- C7.  For every filtered record set, `export_to_csv` produces the
header with exactly the eleven columns in source order followed by one
row per record in filtered order, where each row is the projection of
its record and the emitted confidence is `round(confidence * 100, 2)`
(rounding to two decimals, ties to even). -/
theorem export_to_csv_spec (df : List Record) :
    (export_to_csv df).1 =
      ["question_no", "answer_label", "answer_text", "provided_key_label", "final_decision",
       "confidence", "depth", "has_images", "illegible", "mixed_lang", "runner_up"] ∧
    (export_to_csv df).2.length = df.length ∧
    (∀ i : Nat, (export_to_csv df).2[i]? =
      (df[i]?).map (fun r =>
        ({ question_no := r.question_no
           answer_label := r.answer_label
           answer_text := r.answer_text
           provided_key_label := r.provided_key_label
           final_decision := r.final_decision
           confidence := round2 (r.confidence.mul (Frac.ofInt 100))
           depth := r.depth
           has_images := r.has_images
           illegible := r.illegible
           mixed_lang := r.mixed_lang
           runner_up := r.runner_up } : CsvRow))) := by
  refine ⟨rfl, by simp [export_to_csv], ?_⟩
  intro i
  simp only [export_to_csv, List.getElem?_map]
  cases hdf : df[i]? with
  | none => rfl
  | some r => rfl

/-- C8 (counterexample).  The claim says `export_to_json` emits, for
every filtered record, that record's original question object, with
`total_exported` the number of filtered records.  The source's
`if raw_data:` is a truthiness test, so a record whose raw question is
the empty dict is silently skipped: exporting the one-record set built
from the empty question yields an empty `questions` list and
`total_exported = 0`, not the claimed one object and count 1. -/
theorem export_to_json_truthiness_cx :
    export_to_json [mkRecord [] []] "T" =
      .obj [("questions", .arr []),
            ("metadata", .obj [("total_exported", .num (Frac.ofInt 0)),
                               ("export_timestamp", .str "T")])] ∧
    (mkRecord [] []).raw = .obj [] ∧
    Json.arr [] ≠ .arr [(mkRecord [] []).raw] := by
  refine ⟨rfl, rfl, ?_⟩
  simp

/-- C8 (amended).  For every filtered record set all of whose raw
question objects are truthy (any non-empty dict), `export_to_json`
emits exactly the records' original nested question objects, one per
filtered record in order, wrapped with `total_exported` equal to the
number of filtered records and the passed timestamp; records whose raw
value is falsy (such as the empty dict) are skipped (see the
counterexample).  Moreover the raw objects are the originals: records
produced by `normalize_questions` carry, in order, exactly the
question objects parsed from the source document. -/
theorem export_to_json_amended :
    (∀ (df : List Record) (now : String), (∀ r ∈ df, pyTruthy r.raw = true) →
      export_to_json df now =
        .obj [("questions", .arr (df.map Record.raw)),
              ("metadata",
                .obj [("total_exported", .num (Frac.ofInt (df.map Record.raw).length)),
                      ("export_timestamp", .str now)])] ∧
      (df.map Record.raw).length = df.length) ∧
    (∀ (data : List (String × Json)) (l : List (List (String × Json))),
      data.lookup "questions" = some (.arr (l.map Json.obj)) →
      ∃ recs, normalize_questions data = .ok recs ∧ recs.map Record.raw = l.map Json.obj) := by
  constructor
  · intro df now h
    have hfil : (df.map Record.raw).filter pyTruthy = df.map Record.raw := by
      apply List.filter_eq_self.mpr
      intro a ha
      rcases List.mem_map.mp ha with ⟨r, hr, rfl⟩
      exact h r hr
    exact ⟨by simp only [export_to_json, hfil], by simp⟩
  · intro data l h
    refine ⟨l.map (mkRecord data), normalize_questions_ok data l h, ?_⟩
    have hcomp : Record.raw ∘ mkRecord data = Json.obj := funext (fun qf => rfl)
    rw [List.map_map, hcomp]

/-- C8 (witness for the amended theorem) at a one-record set with a
truthy raw object and at the concrete document `c4doc`. -/
theorem export_to_json_amended_witness :
    (∀ r ∈ ([c1r1] : List Record), pyTruthy r.raw = true) ∧
    (export_to_json [c1r1] "T" =
        .obj [("questions", .arr ([c1r1].map Record.raw)),
              ("metadata",
                .obj [("total_exported", .num (Frac.ofInt ([c1r1].map Record.raw).length)),
                      ("export_timestamp", .str "T")])] ∧
      ([c1r1].map Record.raw).length = ([c1r1] : List Record).length) ∧
    c4doc.lookup "questions" = some (.arr (c4qs.map Json.obj)) ∧
    (∃ recs, normalize_questions c4doc = .ok recs ∧ recs.map Record.raw = c4qs.map Json.obj) := by
  have hall : ∀ r ∈ ([c1r1] : List Record), pyTruthy r.raw = true := by
    intro r hr
    rw [List.mem_singleton.mp hr]
    rfl
  exact ⟨hall, (export_to_json_amended.1 [c1r1] "T" hall), rfl,
    export_to_json_amended.2 c4doc c4qs rfl⟩

/-- C10.  `search_text_fields` never raises (it is total by
construction, mirroring the `isinstance` guards of the source) and
silently skips a non-list `why`, `findings` or `others` field and any
non-dict entry of `others`: its result on any record equals its result
on the record with those fields replaced by empty lists and those
entries dropped, so skipped fields and entries can never cause a
match. -/
theorem search_text_fields_skips_nonlists (r : Record) (term : String) :
    search_text_fields r term = search_text_fields (sanitizeSearchFields r) term := by
  cases r with
  | mk qn dep al ans pkl fg fd ovk mis ill mlg cf ru hi ver wy fnd ot rw =>
    simp only [search_text_fields, sanitizeSearchFields]
    have hw : (match wy with
        | Json.arr xs =>
          xs.any (fun item =>
            charsContains (lowerChars (pyStr item).toList) (lowerChars term.toList))
        | _ => false) =
        (match (match wy with | Json.arr xs => Json.arr xs | _ => Json.arr []) with
        | Json.arr xs =>
          xs.any (fun item =>
            charsContains (lowerChars (pyStr item).toList) (lowerChars term.toList))
        | _ => false) := by
      cases wy <;> rfl
    have hf : (match fnd with
        | Json.arr xs =>
          xs.any (fun item =>
            charsContains (lowerChars (pyStr item).toList) (lowerChars term.toList))
        | _ => false) =
        (match (match fnd with | Json.arr xs => Json.arr xs | _ => Json.arr []) with
        | Json.arr xs =>
          xs.any (fun item =>
            charsContains (lowerChars (pyStr item).toList) (lowerChars term.toList))
        | _ => false) := by
      cases fnd <;> rfl
    have ho : (match ot with
        | Json.arr xs =>
          xs.any (fun o =>
            match o with
            | Json.obj fs =>
              charsContains (lowerChars (pyStr ((fs.lookup "text").getD (.str ""))).toList)
                (lowerChars term.toList) ||
              charsContains (lowerChars (pyStr ((fs.lookup "reason").getD (.str ""))).toList)
                (lowerChars term.toList)
            | _ => false)
        | _ => false) =
        (match (match ot with
          | Json.arr xs => Json.arr (xs.filter Json.isObj)
          | _ => Json.arr []) with
        | Json.arr xs =>
          xs.any (fun o =>
            match o with
            | Json.obj fs =>
              charsContains (lowerChars (pyStr ((fs.lookup "text").getD (.str ""))).toList)
                (lowerChars term.toList) ||
              charsContains (lowerChars (pyStr ((fs.lookup "reason").getD (.str ""))).toList)
                (lowerChars term.toList)
            | _ => false)
        | _ => false) := by
      cases ot with
      | arr xs =>
        exact any_eq_any_filter Json.isObj _
          (fun x hx => by cases x <;> first | rfl | (simp [Json.isObj] at hx)) xs
      | null => rfl
      | bool b => rfl
      | num q => rfl
      | str s => rfl
      | obj fs => rfl
    rw [hw, hf, ho]
